import Mathlib

/-!
Verification of the `rlistic` graded-value ("Representation by Levels") library.

Levels (Python floats such as `1.0`, `0.8`) are embedded as rationals `ℚ`;
all level literals in the repository are short decimals, and the comparisons
and equalities the code performs on them coincide with the rational order.
Python dictionaries (which preserve insertion order and have unique keys) are
embedded as association lists `List (ℚ × α)` in insertion order.
Fallible code (Python `raise`) is embedded with `Except String`.
-/

namespace Rlistic

/-- A level: a confidence degree; Python uses floats, embedded as `ℚ`. -/
abbrev Level := ℚ

/-- Python's `sorted(level_set, reverse=True)` (a stable descending sort),
used by `validate_level_set` in `common.py`. -/
def sortedDesc (l : List ℚ) : List ℚ :=
  List.insertionSort (fun a b => a ≥ b) l

/-- `validate_level_set` from `common.py` (lines 5-28).  The `isinstance`
checks (list-ness, numeric-ness of entries) hold by typing in this embedding;
the remaining checks are translated in the source's order with the source's
messages. -/
def validate_level_set (level_set : List ℚ) : Except String Unit :=
  if level_set = [] then .error "Level-set cannot be empty"
  else if (1 : ℚ) ∉ level_set then .error "Level 1 must be present in every RL"
  else if ¬ (∀ a ∈ level_set, 0 < a ∧ a ≤ 1) then .error "Levels must be in (0,1]"
  else if level_set ≠ sortedDesc level_set then .error "Levels must be in descending order"
  else .ok ()

/-- `validate_mapping` from `common.py` (lines 30-48): validates the key set;
the same-runtime-type check on the values holds by typing in this embedding
(all values of the association list share the type `α`). -/
def validate_mapping {α : Type} (mapping : List (Level × α)) : Except String Unit :=
  validate_level_set (mapping.map Prod.fst)

/-- `combine_levels_2lists` from `proxy.py` (lines 135-146; identical copies
live in `runtime.py` and `static.py`): two-pointer merge of two descending
level lists.  The loop emits `curr1 if curr1 >= curr2 else curr2`, advances
pointer 1 iff `curr1 >= curr2` and pointer 2 iff `curr2 >= curr1`, and the
two `extend` lines afterwards append whichever tail remains; the three cases
below (`curr2 < curr1`, `curr1 < curr2`, equality) are exactly those steps. -/
def combine_levels_2lists : List ℚ → List ℚ → List ℚ
  | [], lvls2 => lvls2
  | lvls1, [] => lvls1
  | curr1 :: rest1, curr2 :: rest2 =>
    if curr2 < curr1 then curr1 :: combine_levels_2lists rest1 (curr2 :: rest2)
    else if curr1 < curr2 then curr2 :: combine_levels_2lists (curr1 :: rest1) rest2
    else curr1 :: combine_levels_2lists rest1 rest2
termination_by l1 l2 => l1.length + l2.length
decreasing_by
  all_goals simp
  all_goals omega

/-- The RL ("graded value") data of `proxy.py`'s class `RL`: its private
`__mapping`, a dict from levels to objects kept in insertion order. -/
structure RL (α : Type) where
  mapping : List (Level × α)
deriving DecidableEq

/-- Python `dict` lookup by key (`mapping.get(level)` hit-or-miss part). -/
def lookupLevel {α : Type} : List (Level × α) → Level → Option α
  | [], _ => none
  | (a, v) :: rest, level => if a = level then some v else lookupLevel rest level

/-- `RL.get_level_set` from `proxy.py` (lines 79-86): `list(mapping.keys())`. -/
def RL.get_level_set {α : Type} (r : RL α) : List Level :=
  r.mapping.map Prod.fst

/-- `RL.get_object` from `proxy.py` (lines 88-99): `mapping.get(level, default)`.
Python's `None` default is embedded by letting the default be an `Option`. -/
def RL.get_object {α : Type} (r : RL α) (level : Level) (default : Option α) : Option α :=
  match lookupLevel r.mapping level with
  | some v => some v
  | none => default

/-- `RL.__init__` from `proxy.py` (lines 70-77): validate the mapping, then
store it (the per-value `deepcopy` is the identity in this pure embedding). -/
def RL_init {α : Type} (mapping : List (Level × α)) : Except String (RL α) :=
  match validate_mapping mapping with
  | .error e => .error e
  | .ok _ => .ok ⟨mapping⟩

/-- An operand of a lifted operation: either an `RL` or a crisp (bare) value,
as accepted by `general_method` in `proxy.py`. -/
inductive Operand (β : Type) where
  | rl : RL β → Operand β
  | crisp : β → Operand β

/-- Crisp promotion from `general_method` in `proxy.py` (line 181):
`RL({1 : arg}) if not isinstance(arg, RL) else arg`.  The constructor call
`RL({1: arg})` always passes validation (`[1]` is a valid level set) and
deep-copies, so it is embedded as direct construction. -/
def promote {β : Type} : Operand β → RL β
  | .rl r => r
  | .crisp b => ⟨[(1, b)]⟩

/-- The result of a lifted operation: an `RL`, or a crisp value when the
canonicalized mapping retains a single level. -/
inductive LiftResult (γ : Type) where
  | rl : RL γ → LiftResult γ
  | crisp : γ → LiftResult γ
deriving DecidableEq

/-- The level-wise loop shared by `general_method` in `proxy.py`
(lines 203-222), `runtime.py` (lines 159-190) and `static.py` (lines 167-190),
for one positional operand (the arity used by every dunder such as `__add__`).
Per level, in the given order: re-resolve the current self and operand values
via `get(level, previousCurrent)` (fill-forward), apply the operation, and
keep the `(level, result)` pair iff `level == 1 or curr != prev`.  The current
values start as `Option`s because Python seeds them with `get_object(1)` whose
miss is `None`; applying an operation to `None` raises (`AttributeError`),
which is unreachable for validated RLs since level 1 is always present.
An operation failure aborts the loop, carrying the failing level and the raw
error; `general_method` (proxy/runtime) re-raises it unchanged while
`general_method_static` wraps it (the `try/except` of `static.py` line 182). -/
def general_loop {α β γ : Type} [DecidableEq γ] (op : α → β → Except String γ)
    (selfMap : List (Level × α)) (argMap : List (Level × β)) :
    List Level → Option α → Option β → Option γ → List (Level × γ) →
    Except (Level × String) (List (Level × γ))
  | [], _, _, _, mapping => .ok mapping
  | level :: rest, currSelf, currArg, prev, mapping =>
    let currSelf' := match lookupLevel selfMap level with
      | some v => some v
      | none => currSelf
    let currArg' := match lookupLevel argMap level with
      | some v => some v
      | none => currArg
    match currSelf', currArg' with
    | some s, some a =>
      match op s a with
      | .error e => .error (level, e)
      | .ok curr =>
        general_loop op selfMap argMap rest currSelf' currArg' (some curr)
          (if level = 1 ∨ some curr ≠ prev then mapping ++ [(level, curr)] else mapping)
    | _, _ => .error (level, "AttributeError: 'NoneType' object has no attribute")

/-- `RL.general_method` from `proxy.py` (lines 164-226) for one positional
operand: promote a crisp operand, merge level sets, run the level-wise loop,
then return `RL(mapping)` (which re-validates) if more than one level
survives, else the crisp `mapping[1]`.  An operation error propagates
unwrapped (the proxy loop has no `try/except`). -/
def general_method {α β γ : Type} [DecidableEq γ] (op : α → β → Except String γ)
    (self : RL α) (arg : Operand β) : Except String (LiftResult γ) :=
  match general_loop op self.mapping (promote arg).mapping
      (combine_levels_2lists self.get_level_set (promote arg).get_level_set)
      (lookupLevel self.mapping 1) (lookupLevel (promote arg).mapping 1) none [] with
  | .error (_, e) => .error e
  | .ok mapping =>
    if 1 < mapping.length then
      match RL_init mapping with
      | .error e => .error e
      | .ok r => .ok (.rl r)
    else
      match lookupLevel mapping 1 with
      | some v => .ok (.crisp v)
      | none => .error "KeyError: 1"

/-- The error annotation of `_RLBase.general_method` in `static.py`
(line 185): `f"Error in {self.__class__.__name__} at level {level}: {e}"`. -/
def wrap_error (clsName : String) (level : Level) (e : String) : String :=
  "Error in " ++ clsName ++ " at level " ++ toString level ++ ": " ++ e

/-- `_RLBase.general_method` from `static.py` (lines 111-206) for one
positional operand whose type is registered (the `RL_REGISTRY` lookups for
crisp promotion and for the result class are type dispatch, resolved by
typing in this embedding; every use in the claims involves registered
types).  Identical to the proxy variant except that an operation error is
wrapped with the RL class name and the failing level (`try/except` at
lines 182-185) before aborting. -/
def general_method_static {α β γ : Type} [DecidableEq γ] (clsName : String)
    (op : α → β → Except String γ) (self : RL α) (arg : Operand β) :
    Except String (LiftResult γ) :=
  match general_loop op self.mapping (promote arg).mapping
      (combine_levels_2lists self.get_level_set (promote arg).get_level_set)
      (lookupLevel self.mapping 1) (lookupLevel (promote arg).mapping 1) none [] with
  | .error (level, e) => .error (wrap_error clsName level e)
  | .ok mapping =>
    if 1 < mapping.length then
      match RL_init mapping with
      | .error e => .error e
      | .ok r => .ok (.rl r)
    else
      match lookupLevel mapping 1 with
      | some v => .ok (.crisp v)
      | none => .error "KeyError: 1"

/-- Python's whitespace predicate for `str.strip()`. -/
def pyIsSpace (c : Char) : Bool :=
  c == ' ' || c == '\t' || c == '\n' || c == '\r' || c == '\x0b' || c == '\x0c'

/-- `str.strip()` on the underlying character list: drop whitespace from the
front, then from the back. -/
def pyStripChars (l : List Char) : List Char :=
  ((l.dropWhile pyIsSpace).reverse.dropWhile pyIsSpace).reverse

/-- `str.strip()`. -/
def pyStrip (s : String) : String :=
  ⟨pyStripChars s.toList⟩

/-- `run_program` from `rlprogram.py` (lines 10-33) with the external program
embedded as a pure function `prog` from the input fed to its stdin to the
stdout it produces: `return result.stdout.strip() or "None"` (a Python `or`
on strings yields the right operand iff the left is empty).  The
`CalledProcessError` path (non-zero exit) is outside this pure embedding. -/
def run_program (prog : String → String) (inp : String) : String :=
  let out := pyStrip (prog inp)
  if out = "" then "None" else out

/-- `rlify_program` from `rlprogram.py` (lines 35-91) with the external
program embedded as a pure function and the input file already parsed into
its level line and input lines (the file-reading and multiprocessing
plumbing is I/O; sequential and pooled execution both produce the outputs in
input order, as `pool.starmap` preserves order).  After validation the code
runs the program once per input and returns `dict(zip(levels, results))`
verbatim: no canonicalization of the collected pairs is performed. -/
def rlify_program (prog : String → String) (levels : List Level)
    (inputs : List String) : Except String (List (Level × String)) :=
  match validate_level_set levels with
  | .error e => .error e
  | .ok _ =>
    if inputs.length ≠ levels.length then
      .error "Input file must have one input line per level"
    else
      .ok (List.zip levels (inputs.map fun inp => run_program prog inp))

/-- Python's `int.__add__` as a per-level operation: total, never raises. -/
def intAdd : ℤ → ℤ → Except String ℤ :=
  fun a b => .ok (a + b)

/-- A per-level operation that always raises (models a method whose body
throws), used to observe the error path of the lifters. -/
def failOp : ℤ → ℤ → Except String ℤ :=
  fun _ _ => .error "boom"

/-! ## General lemmas about the embedded code -/

theorem sortedDesc_self_iff (l : List ℚ) :
    l = sortedDesc l ↔ List.Sorted (fun a b => a ≥ b) l := by
  constructor
  · intro h
    rw [h]
    exact List.sorted_insertionSort _ l
  · intro h
    exact (List.Sorted.insertionSort_eq h).symm

theorem validate_level_set_ok_iff (l : List ℚ) :
    validate_level_set l = .ok () ↔
      l ≠ [] ∧ (1 : ℚ) ∈ l ∧ (∀ a ∈ l, 0 < a ∧ a ≤ 1) ∧
        List.Sorted (fun a b => a ≥ b) l := by
  unfold validate_level_set
  split_ifs with h1 h2 h3 h4 <;>
    simp_all [sortedDesc_self_iff]

theorem mem_combine_levels_2lists (a : ℚ) :
    ∀ (l1 l2 : List ℚ), a ∈ combine_levels_2lists l1 l2 → a ∈ l1 ∨ a ∈ l2 := by
  intro l1 l2
  induction l1, l2 using combine_levels_2lists.induct with
  | case1 l2 => intro h; simp only [combine_levels_2lists] at h; exact Or.inr h
  | case2 l1 => intro h; simp only [combine_levels_2lists] at h; exact Or.inl h
  | case3 c1 t1 c2 t2 hlt ih =>
    intro h
    simp only [combine_levels_2lists, if_pos hlt] at h
    rcases List.mem_cons.mp h with rfl | h
    · exact Or.inl (List.mem_cons_self _ _)
    · rcases ih h with h1 | h2
      · exact Or.inl (List.mem_cons_of_mem _ h1)
      · exact Or.inr h2
  | case4 c1 t1 c2 t2 hnlt hlt ih =>
    intro h
    simp only [combine_levels_2lists, if_neg hnlt, if_pos hlt] at h
    rcases List.mem_cons.mp h with rfl | h
    · exact Or.inr (List.mem_cons_self _ _)
    · rcases ih h with h1 | h2
      · exact Or.inl h1
      · exact Or.inr (List.mem_cons_of_mem _ h2)
  | case5 c1 t1 c2 t2 hnlt hnlt2 ih =>
    intro h
    simp only [combine_levels_2lists, if_neg hnlt, if_neg hnlt2] at h
    rcases List.mem_cons.mp h with rfl | h
    · exact Or.inl (List.mem_cons_self _ _)
    · rcases ih h with h1 | h2
      · exact Or.inl (List.mem_cons_of_mem _ h1)
      · exact Or.inr (List.mem_cons_of_mem _ h2)

theorem pairwise_combine_levels_2lists :
    ∀ (l1 l2 : List ℚ), List.Pairwise (fun a b => a > b) l1 →
      List.Pairwise (fun a b => a > b) l2 →
      List.Pairwise (fun a b => a > b) (combine_levels_2lists l1 l2) := by
  intro l1 l2
  induction l1, l2 using combine_levels_2lists.induct with
  | case1 l2 => intro _ h2; simpa [combine_levels_2lists] using h2
  | case2 l1 => intro h1 _; simpa [combine_levels_2lists] using h1
  | case3 c1 t1 c2 t2 hlt ih =>
    intro h1 h2
    rcases List.pairwise_cons.mp h1 with ⟨hc1, ht1⟩
    simp only [combine_levels_2lists, if_pos hlt]
    refine List.pairwise_cons.mpr ⟨?_, ih ht1 h2⟩
    intro b hb
    rcases mem_combine_levels_2lists b t1 (c2 :: t2) hb with hb1 | hb2
    · exact hc1 b hb1
    · rcases List.mem_cons.mp hb2 with rfl | hb3
      · exact hlt
      · exact lt_trans (List.pairwise_cons.mp h2 |>.1 b hb3) hlt
  | case4 c1 t1 c2 t2 hnlt hlt ih =>
    intro h1 h2
    rcases List.pairwise_cons.mp h2 with ⟨hc2, ht2⟩
    simp only [combine_levels_2lists, if_neg hnlt, if_pos hlt]
    refine List.pairwise_cons.mpr ⟨?_, ih h1 ht2⟩
    intro b hb
    rcases mem_combine_levels_2lists b (c1 :: t1) t2 hb with hb1 | hb2
    · rcases List.mem_cons.mp hb1 with rfl | hb3
      · exact hlt
      · exact lt_trans (List.pairwise_cons.mp h1 |>.1 b hb3) hlt
    · exact hc2 b hb2
  | case5 c1 t1 c2 t2 hnlt hnlt2 ih =>
    intro h1 h2
    have heq : c1 = c2 := le_antisymm (not_lt.mp hnlt) (not_lt.mp hnlt2)
    rcases List.pairwise_cons.mp h1 with ⟨hc1, ht1⟩
    rcases List.pairwise_cons.mp h2 with ⟨hc2, ht2⟩
    simp only [combine_levels_2lists, if_neg hnlt, if_neg hnlt2]
    refine List.pairwise_cons.mpr ⟨?_, ih ht1 ht2⟩
    intro b hb
    rcases mem_combine_levels_2lists b t1 t2 hb with hb1 | hb2
    · exact hc1 b hb1
    · exact heq ▸ hc2 b hb2

theorem combine_levels_2lists_self : ∀ (l : List ℚ), combine_levels_2lists l l = l := by
  intro l
  induction l with
  | nil => simp [combine_levels_2lists]
  | cons c t ih =>
    simp [combine_levels_2lists, ih]

theorem head?_dropWhile_not_space (l : List Char) (c : Char)
    (h : (l.dropWhile pyIsSpace).head? = some c) : pyIsSpace c = false := by
  induction l with
  | nil => simp [List.dropWhile] at h
  | cons a t ih =>
    by_cases ha : pyIsSpace a
    · rw [List.dropWhile_cons, if_pos ha] at h
      exact ih h
    · rw [List.dropWhile_cons, if_neg ha] at h
      simp only [List.head?_cons, Option.some.injEq] at h
      rw [← h]
      exact Bool.eq_false_iff.mpr ha

theorem pyStripChars_all_space (l : List Char) (h : ∀ c ∈ l, pyIsSpace c) :
    pyStripChars l = [] := by
  unfold pyStripChars
  rw [List.dropWhile_eq_nil_iff.mpr h]
  simp

theorem pyStripChars_not_all_space (l : List Char) (h : ¬ ∀ c ∈ l, pyIsSpace c) :
    pyStripChars l ≠ [] ∧
      (∀ c, (pyStripChars l).head? = some c → pyIsSpace c = false) ∧
      (∀ c, (pyStripChars l).getLast? = some c → pyIsSpace c = false) := by
  have hd : l.dropWhile pyIsSpace ≠ [] :=
    fun hnil => h (List.dropWhile_eq_nil_iff.mp hnil)
  obtain ⟨c0, t0, he0⟩ := List.exists_cons_of_ne_nil hd
  have hc0 : (l.dropWhile pyIsSpace).head? = some c0 := by rw [he0]; rfl
  have hc0n : pyIsSpace c0 = false := head?_dropWhile_not_space l c0 hc0
  have hc0mem : c0 ∈ l.dropWhile pyIsSpace := List.mem_of_mem_head? (by rw [hc0]; rfl)
  have hd2 : (l.dropWhile pyIsSpace).reverse.dropWhile pyIsSpace ≠ [] := by
    intro hnil
    have := List.dropWhile_eq_nil_iff.mp hnil c0 (List.mem_reverse.mpr hc0mem)
    rw [hc0n] at this
    cases this
  refine ⟨?_, ?_, ?_⟩
  · unfold pyStripChars
    simpa using hd2
  · intro c hc
    unfold pyStripChars at hc
    rw [List.head?_reverse] at hc
    have hlast : ((l.dropWhile pyIsSpace).reverse.dropWhile pyIsSpace).getLast? =
        (l.dropWhile pyIsSpace).reverse.getLast? := by
      conv_rhs => rw [← List.takeWhile_append_dropWhile (p := pyIsSpace)
        (l := (l.dropWhile pyIsSpace).reverse)]
      exact (List.getLast?_append_of_ne_nil _ hd2).symm
    rw [hlast, List.getLast?_reverse] at hc
    exact head?_dropWhile_not_space l c hc
  · intro c hc
    unfold pyStripChars at hc
    rw [List.getLast?_reverse] at hc
    exact head?_dropWhile_not_space _ c hc

theorem pyStrip_toList (s : String) : (pyStrip s).toList = pyStripChars s.toList := rfl

theorem pyStrip_eq_empty_iff (s : String) : pyStrip s = "" ↔ pyStripChars s.toList = [] := by
  unfold pyStrip
  constructor
  · intro h
    have := congrArg String.toList h
    simpa using this
  · intro h
    rw [h]

theorem general_method_of_loop_error {α β γ : Type} [DecidableEq γ] (clsName : String)
    (op : α → β → Except String γ) (self : RL α) (arg : Operand β) (lv : Level) (e : String)
    (h : general_loop op self.mapping (promote arg).mapping
        (combine_levels_2lists self.get_level_set (promote arg).get_level_set)
        (lookupLevel self.mapping 1) (lookupLevel (promote arg).mapping 1) none [] =
      .error (lv, e)) :
    general_method op self arg = .error e ∧
      general_method_static clsName op self arg = .error (wrap_error clsName lv e) := by
  unfold general_method general_method_static
  rw [h]
  exact ⟨rfl, rfl⟩

theorem general_method_ok_rl {α β γ : Type} [DecidableEq γ] (op : α → β → Except String γ)
    (self : RL α) (arg : Operand β) (r : RL γ)
    (h : general_method op self arg = .ok (.rl r)) :
    validate_level_set r.get_level_set = .ok () ∧ 1 < r.mapping.length := by
  unfold general_method at h
  split at h
  · exact absurd h (by simp)
  · rename_i mapping heq
    split at h
    · rename_i hlen
      split at h
      · exact absurd h (by simp)
      · rename_i r' hinit
        unfold RL_init at hinit
        split at hinit
        · exact absurd hinit (by simp)
        · rename_i u hvm
          simp only [Except.ok.injEq] at hinit
          simp only [Except.ok.injEq, LiftResult.rl.injEq] at h
          subst h
          subst hinit
          refine ⟨?_, hlen⟩
          cases u
          exact hvm
    · split at h
      · exact absurd h (by simp)
      · exact absurd h (by simp)

/-- Evaluation of a two-level lift used to exhibit a non-crisp result:
`{1.0: 5, 0.5: 3} + crisp 1` gives `{1.0: 6, 0.5: 4}`. -/
theorem general_method_intAdd_eval :
    general_method intAdd ⟨[(1, 5), (1/2, 3)]⟩ (.crisp 1) =
      .ok (.rl ⟨[(1, 6), (1/2, 4)]⟩) := by
  norm_num [general_method, general_loop, RL.get_level_set, promote, lookupLevel, RL_init,
    validate_mapping, validate_level_set, sortedDesc, combine_levels_2lists,
    List.insertionSort, List.orderedInsert, intAdd]
  simp

/-- Evaluation of the level-wise loop on a single-level RL and a crisp
operand under an always-raising operation: it fails at level 1. -/
theorem general_loop_failOp_eval :
    general_loop failOp ([(1, (5 : ℤ))]) (promote (Operand.crisp (0 : ℤ))).mapping
        (combine_levels_2lists (RL.get_level_set ⟨[(1, (5 : ℤ))]⟩)
          (promote (Operand.crisp (0 : ℤ))).get_level_set)
        (lookupLevel [(1, (5 : ℤ))] 1)
        (lookupLevel (promote (Operand.crisp (0 : ℤ))).mapping 1) none [] =
      .error (1, "boom") := by
  simp [general_loop, combine_levels_2lists, RL.get_level_set, promote, lookupLevel, failOp]

/-! ## Claims -/

/-- Claim C1: lifting with a crisp operand promotes it to a single-level RL at
level 1.0 and extends it forward to finer levels: for `A = {1.0: 5, 0.8: 3}`
and crisp operand `0`, `lift("+", A, 0)` merges levels to `[1.0, 0.8]`,
computes `5+0=5` at level 1.0 and `3+0=3` at level 0.8 (the crisp operand's
value extending forward from level 1.0), keeps both since `3 ≠ 5`, and
returns the RL `{1.0: 5, 0.8: 3}`. -/
theorem C1_lift_crisp_promotes_and_extends :
    general_method intAdd ⟨[(1, 5), (4/5, 3)]⟩ (.crisp 0) =
      .ok (.rl ⟨[(1, 5), (4/5, 3)]⟩) := by
  norm_num [general_method, general_loop, RL.get_level_set, promote, lookupLevel, RL_init,
    validate_mapping, validate_level_set, sortedDesc, combine_levels_2lists,
    List.insertionSort, List.orderedInsert, intAdd]
  simp

/-- Claim C2: when canonicalization leaves exactly one surviving level, the
lifted operation returns the bare crisp value: for `A = {1.0: 5, 0.8: 5}` and
`B = {1.0: 2, 0.8: 2}`, `lift("+", A, B)` computes `7` at level 1.0, drops
level 0.8 (equal to the previous kept value), and returns crisp `7`. -/
theorem C2_squash_to_crisp :
    general_method intAdd ⟨[(1, 5), (4/5, 5)]⟩ (.rl ⟨[(1, 2), (4/5, 2)]⟩) =
      .ok (.crisp 7) := by
  norm_num [general_method, general_loop, RL.get_level_set, promote, lookupLevel, RL_init,
    validate_mapping, validate_level_set, sortedDesc, combine_levels_2lists,
    List.insertionSort, List.orderedInsert, intAdd]

/-- Claim C3, counterexample: contrary to the claim, `validate_level_set`
accepts a list with a repeated level (`[1.0, 0.8, 0.8]`) and a list with two
entries equal to 1.0 (`[1.0, 1.0, 0.8]`): the code compares against
`sorted(level_set, reverse=True)`, which only enforces non-increasing order,
not strict descent. -/
theorem C3_duplicate_levels_accepted :
    validate_level_set [1, 4/5, 4/5] = .ok () ∧
      validate_level_set [1, 1, 4/5] = .ok () := by
  constructor <;>
    · norm_num [validate_level_set, sortedDesc, List.insertionSort, List.orderedInsert]
      simp

/-- Claim C3, amended: for every input list of levels, validation succeeds
iff the list is non-empty, contains 1.0 (at least once), every entry lies in
(0,1], and the sequence is non-increasing (descending with duplicates
allowed); repeated levels, including a repeated 1.0, are accepted, not
rejected. -/
theorem C3_validate_characterization (l : List ℚ) :
    validate_level_set l = .ok () ↔
      l ≠ [] ∧ (1 : ℚ) ∈ l ∧ (∀ a ∈ l, 0 < a ∧ a ≤ 1) ∧
        List.Sorted (fun a b => a ≥ b) l :=
  validate_level_set_ok_iff l

/-- Claim C4: the two-pointer merge of two strictly descending level lists
emits the larger head at each step and advances both pointers (emitting
once) on equal heads, so the output is again strictly descending and has no
duplicate levels; and concretely
`merge([1.0, 0.8, 0.4], [1.0, 0.95, 0.2, 0.1]) = [1.0, 0.95, 0.8, 0.4, 0.2, 0.1]`. -/
theorem C4_merge_descending_nodup :
    (∀ (l1 l2 : List ℚ), List.Pairwise (fun a b => a > b) l1 →
      List.Pairwise (fun a b => a > b) l2 →
      List.Pairwise (fun a b => a > b) (combine_levels_2lists l1 l2) ∧
        (combine_levels_2lists l1 l2).Nodup) ∧
    combine_levels_2lists [1, 4/5, 2/5] [1, 19/20, 1/5, 1/10] =
      [1, 19/20, 4/5, 2/5, 1/5, 1/10] := by
  constructor
  · intro l1 l2 h1 h2
    have hp := pairwise_combine_levels_2lists l1 l2 h1 h2
    exact ⟨hp, hp.imp ne_of_gt⟩
  · norm_num [combine_levels_2lists]

/-- Claim C4, witness: the general part applied to the concrete strictly
descending lists `[1]` and `[1]`. -/
theorem C4_merge_descending_nodup_witness :
    List.Pairwise (fun a b => a > b) (combine_levels_2lists [1] [1]) ∧
      (combine_levels_2lists [(1 : ℚ)] [1]).Nodup :=
  C4_merge_descending_nodup.1 [1] [1] (by simp) (by simp)

/-- Claim C5: evaluation of `rlify_program` at the failing input — a program
that prints the same string for every level.  The code returns the two-level
mapping verbatim (`dict(zip(levels, results))`, no canonicalization), not the
bare crisp string that the claim, the spec (§4.5) and the repository's own
test `test_rlprogram.py::test_squash_crisp` expect. -/
theorem C5_batch_no_canonicalization :
    rlify_program (fun _ => "Processed: same_output\n") [1, 4/5] ["input1", "input2"] =
      .ok [(1, "Processed: same_output"), (4/5, "Processed: same_output")] := by
  norm_num [rlify_program, validate_level_set, sortedDesc, List.insertionSort,
    List.orderedInsert, run_program, pyStrip, pyStripChars, pyIsSpace, List.dropWhile]
  simp

/-- Claim C6, counterexample: contrary to the claim, the proxy Lifter
(`RL.general_method` in `proxy.py`) has no `try/except` and propagates a
per-level failure verbatim, with no annotation naming the failing level or
the element type: lifting an always-raising operation over
`{1.0: 5, 0.8: 3}` with crisp operand `0` returns exactly the raw error. -/
theorem C6_error_not_wrapped_in_proxy :
    general_method failOp ⟨[(1, 5), (4/5, 3)]⟩ (.crisp 0) = .error "boom" := by
  norm_num [general_method, general_loop, RL.get_level_set, promote, lookupLevel,
    combine_levels_2lists, failOp]

/-- Claim C6, amended: if the per-level operation raises at some level, every
lifted call aborts with an error — no partial RL is ever returned — but only
the static variant (`static.py`) wraps the error, annotating the failing
level and the RL class's name; the proxy variant re-raises the underlying
error unchanged. -/
theorem C6_fail_fast_abort {α β γ : Type} [DecidableEq γ] (clsName : String)
    (op : α → β → Except String γ) (self : RL α) (arg : Operand β)
    (lv : Level) (e : String)
    (h : general_loop op self.mapping (promote arg).mapping
        (combine_levels_2lists self.get_level_set (promote arg).get_level_set)
        (lookupLevel self.mapping 1) (lookupLevel (promote arg).mapping 1) none [] =
      .error (lv, e)) :
    general_method op self arg = .error e ∧
      general_method_static clsName op self arg = .error (wrap_error clsName lv e) :=
  general_method_of_loop_error clsName op self arg lv e h

/-- Claim C6, witness: the amended claim at the concrete input `{1.0: 5}`
with crisp operand `0` and an operation failing with `"boom"` at level 1. -/
theorem C6_fail_fast_abort_witness :
    general_method failOp ⟨[(1, (5 : ℤ))]⟩ (.crisp 0) = .error "boom" ∧
      general_method_static "RLint" failOp ⟨[(1, (5 : ℤ))]⟩ (.crisp 0) =
        .error (wrap_error "RLint" 1 "boom") :=
  C6_fail_fast_abort "RLint" failOp ⟨[(1, (5 : ℤ))]⟩ (.crisp 0) 1 "boom"
    general_loop_failOp_eval

/-- Claim C7: every RL returned by a lifted operation (when the result does
not collapse to crisp) satisfies the RL invariants: its mapping is
non-empty, level 1.0 is present, and its keys pass level-set validation (the
result is built through `RL(mapping)`, which re-validates); value-type
homogeneity holds by typing in this embedding (all values share `γ`). -/
theorem C7_result_invariants {α β γ : Type} [DecidableEq γ]
    (op : α → β → Except String γ) (self : RL α) (arg : Operand β) (r : RL γ)
    (h : general_method op self arg = .ok (.rl r)) :
    r.mapping ≠ [] ∧ (1 : ℚ) ∈ r.get_level_set ∧
      validate_level_set r.get_level_set = .ok () := by
  obtain ⟨hval, _⟩ := general_method_ok_rl op self arg r h
  obtain ⟨hne, hone, _, _⟩ := (validate_level_set_ok_iff _).mp hval
  refine ⟨?_, hone, hval⟩
  intro hnil
  exact hne (by simp [RL.get_level_set, hnil])

/-- Claim C7, witness: the invariants of the concrete result
`{1.0: 6, 0.5: 4}` of `{1.0: 5, 0.5: 3} + crisp 1`. -/
theorem C7_result_invariants_witness :
    (⟨[(1, 6), (1/2, 4)]⟩ : RL ℤ).mapping ≠ [] ∧
      (1 : ℚ) ∈ (⟨[(1, 6), (1/2, 4)]⟩ : RL ℤ).get_level_set ∧
      validate_level_set (⟨[(1, 6), (1/2, 4)]⟩ : RL ℤ).get_level_set = .ok () :=
  C7_result_invariants intAdd ⟨[(1, 5), (1/2, 3)]⟩ (.crisp 1) ⟨[(1, 6), (1/2, 4)]⟩
    general_method_intAdd_eval

/-- Claim C8: construction of an RL from a valid mapping stores every
`(level, value)` pair verbatim and does not auto-squash — even when adjacent
levels hold equal values no level is dropped, so the constructed instance's
mapping equals the input mapping (deep copy is the identity in this pure
embedding); only operation results are canonicalized. -/
theorem C8_construct_stores_verbatim {α : Type} (m : List (Level × α))
    (h : validate_mapping m = .ok ()) : RL_init m = .ok ⟨m⟩ := by
  unfold RL_init
  rw [h]

/-- Claim C8, witness: the verbatim construction at the concrete mapping
`{1.0: 5}`. -/
theorem C8_construct_stores_verbatim_witness :
    RL_init [(1, (5 : ℤ))] = .ok ⟨[(1, (5 : ℤ))]⟩ :=
  C8_construct_stores_verbatim [(1, (5 : ℤ))]
    (by simp [validate_mapping, validate_level_set, sortedDesc,
      List.insertionSort, List.orderedInsert])

/-- Claim C9: level-set merge is idempotent — for every valid level set `L`
(one that passes validation), merging `L` with itself returns `L`. -/
theorem C9_merge_idempotent (l : List ℚ) (h : validate_level_set l = .ok ()) :
    combine_levels_2lists l l = l :=
  combine_levels_2lists_self l

/-- Claim C9, witness: idempotence at the concrete valid level set `[1.0]`. -/
theorem C9_merge_idempotent_witness :
    validate_level_set [1] = .ok () ∧ combine_levels_2lists [(1 : ℚ)] [1] = [1] :=
  ⟨by simp [validate_level_set, sortedDesc, List.insertionSort, List.orderedInsert],
   C9_merge_idempotent [1]
     (by simp [validate_level_set, sortedDesc, List.insertionSort, List.orderedInsert])⟩

/-- Claim C10: `run_program` trims whitespace from the captured stdout: when
the stdout consists entirely of whitespace (including the empty string) it
returns the sentinel `"None"`; otherwise it returns the stdout with leading
and trailing whitespace removed, so returned outputs never start or end with
a whitespace character (in particular, no trailing newline). -/
theorem C10_run_program_trims (prog : String → String) (inp : String) :
    ((∀ c ∈ (prog inp).toList, pyIsSpace c) → run_program prog inp = "None") ∧
    (¬ (∀ c ∈ (prog inp).toList, pyIsSpace c) →
      run_program prog inp = pyStrip (prog inp) ∧
      (∀ c, (run_program prog inp).toList.head? = some c → pyIsSpace c = false) ∧
      (∀ c, (run_program prog inp).toList.getLast? = some c → pyIsSpace c = false)) := by
  constructor
  · intro h
    unfold run_program
    rw [if_pos ((pyStrip_eq_empty_iff _).mpr (pyStripChars_all_space _ h))]
  · intro h
    obtain ⟨hne, hhead, hlast⟩ := pyStripChars_not_all_space (prog inp).toList h
    have hne' : pyStrip (prog inp) ≠ "" :=
      fun hc => hne ((pyStrip_eq_empty_iff _).mp hc)
    unfold run_program
    rw [if_neg hne']
    refine ⟨rfl, ?_, ?_⟩
    · intro c hc
      exact hhead c (by rw [← pyStrip_toList]; exact hc)
    · intro c hc
      exact hlast c (by rw [← pyStrip_toList]; exact hc)

/-- Claim C10, witness: whitespace-only stdout yields `"None"`, and a stdout
with a trailing newline is returned stripped. -/
theorem C10_run_program_trims_witness :
    run_program (fun _ => " \n") "x" = "None" ∧
      run_program (fun _ => "out\n") "x" = pyStrip "out\n" :=
  ⟨(C10_run_program_trims (fun _ => " \n") "x").1 (by decide),
   ((C10_run_program_trims (fun _ => "out\n") "x").2 (by decide)).1⟩

end Rlistic
